import Mathlib

/-!
# Release-channel update resolver — shallow embedding

A verification development of the release-channel update resolver of an
editor extension. The repository ships the unit tests of the resolver
(`test/unitTests/updowngrade.test.ts`); the implementation itself
(`getTargetBuild` in `githubAPI.ts` and `PackageVersion` in
`packageVersion.ts`) is not among the provided sources, so the resolver
and the version order are modelled from the specification (spec.md §3,
§4.1, §4.2) and validated below against every scenario of the unit tests.
-/

/-- Result of a three-way version comparison (spec §4.1: {less, equal, greater}). -/
inductive CompareResult where
  | less
  | equal
  | greater
deriving DecidableEq, Repr

/-- Modelled from the spec (§3, packageVersion.ts is not among the sources):
a parsed version identifier `major.minor.patch[-insidersN]`.
`prereleaseSequence` is `none` when the `-insiders` suffix carries no digits
(meaningful only when `isPrerelease` is true). -/
structure VersionIdentifier where
  major : Nat
  minor : Nat
  patch : Nat
  isPrerelease : Bool
  prereleaseSequence : Option Nat
deriving DecidableEq, Repr

/-- Three-way comparison of naturals. -/
def compareNat (a b : Nat) : CompareResult :=
  if a < b then .less else if b < a then .greater else .equal

/-- The prerelease sequence number used for ordering: an absent sequence
number behaves as 0 (spec §4.1). -/
def VersionIdentifier.seqOrZero (v : VersionIdentifier) : Nat :=
  v.prereleaseSequence.getD 0

/-- Modelled from the spec (§4.1 Compare, packageVersion.ts is not among the
sources): compare major, minor, patch numerically; for an equal numeric core a
non-prerelease is greater than any prerelease; two prereleases with equal core
compare by sequence number (absent = 0). -/
def VersionIdentifier.compare (a b : VersionIdentifier) : CompareResult :=
  match compareNat a.major b.major with
  | .less => .less
  | .greater => .greater
  | .equal =>
    match compareNat a.minor b.minor with
    | .less => .less
    | .greater => .greater
    | .equal =>
      match compareNat a.patch b.patch with
      | .less => .less
      | .greater => .greater
      | .equal =>
        match a.isPrerelease, b.isPrerelease with
        | false, false => .equal
        | false, true  => .greater
        | true,  false => .less
        | true,  true  => compareNat a.seqOrZero b.seqOrZero

/-- The only error kind intrinsic to this core (spec §7). -/
inductive UpdateError where
  | MalformedVersion
deriving DecidableEq, Repr

/-- Numeric value of a list of decimal digit characters. -/
def natOfDigits (ds : List Char) : Nat :=
  ds.foldl (fun acc c => acc * 10 + (c.toNat - 48)) 0

/-- Modelled from the spec (§4.1 Parse, packageVersion.ts is not among the
sources): the input must match `<uint>.<uint>.<uint>` optionally followed by
`-insiders<uint?>`; any string outside this grammar fails with
`MalformedVersion` (spec §7 taxonomy). Works on the character list of the
input. -/
def parseChars (cs : List Char) : Except UpdateError VersionIdentifier :=
  let d1 := cs.takeWhile Char.isDigit
  let r1 := cs.dropWhile Char.isDigit
  if d1.isEmpty then .error .MalformedVersion else
  match r1 with
  | '.' :: cs2 =>
    let d2 := cs2.takeWhile Char.isDigit
    let r2 := cs2.dropWhile Char.isDigit
    if d2.isEmpty then .error .MalformedVersion else
    match r2 with
    | '.' :: cs3 =>
      let d3 := cs3.takeWhile Char.isDigit
      let r3 := cs3.dropWhile Char.isDigit
      if d3.isEmpty then .error .MalformedVersion else
      match r3 with
      | [] => .ok ⟨natOfDigits d1, natOfDigits d2, natOfDigits d3, false, none⟩
      | '-' :: 'i' :: 'n' :: 's' :: 'i' :: 'd' :: 'e' :: 'r' :: 's' :: ds =>
        if ds.all Char.isDigit then
          .ok ⟨natOfDigits d1, natOfDigits d2, natOfDigits d3, true,
               if ds.isEmpty then none else some (natOfDigits ds)⟩
        else .error .MalformedVersion
      | _ => .error .MalformedVersion
    | _ => .error .MalformedVersion
  | _ => .error .MalformedVersion

/-- Parse a version string (spec §4.1 Parse). -/
def parse (s : String) : Except UpdateError VersionIdentifier :=
  parseChars s.toList

/-- A platform-specific published artifact of a build (spec §3 Asset,
field names as in the unit tests' `Asset` fixture). -/
structure Asset where
  name : String
  browser_download_url : String
deriving DecidableEq, Repr

/-- A catalog entry: a version and its published assets (spec §3 Build).
The version is carried parsed; malformed catalog entries are the concern of
the upstream feed parser (spec §4.2), so the resolver sees parsed names. -/
structure Build where
  name : VersionIdentifier
  assets : List Asset
deriving DecidableEq, Repr

/-- The two recognized update channels (spec §3 ChannelPolicy). -/
inductive UpdateChannel where
  | Default
  | Insiders
deriving DecidableEq, Repr

/-- A build with an empty asset set is unpublished (spec §3 Build invariant). -/
def Build.isPublished (b : Build) : Bool :=
  !b.assets.isEmpty

/-- Step 1 of the resolver (spec §4.2): the channel's candidate pool.
`Default` keeps only non-prerelease builds in original order; `Insiders`
keeps the full catalog. -/
def candidatePool (builds : List Build) (updateChannel : UpdateChannel) : List Build :=
  match updateChannel with
  | .Default => builds.filter (fun b => !b.name.isPrerelease)
  | .Insiders => builds

/-- Modelled from the spec (§4.2 TargetResolver, githubAPI.ts is not among the
sources): build the candidate pool, select the first published candidate,
classify the move against the current version, and apply the downgrade gate
(Insiders downgrades only when the unfiltered catalog's first entry has a
version equal to the current version and an empty asset set). -/
def getTargetBuild (builds : List Build) (userVersion : VersionIdentifier)
    (updateChannel : UpdateChannel) : Option Build :=
  match (candidatePool builds updateChannel).find? Build.isPublished with
  | none => none
  | some candidate =>
    match candidate.name.compare userVersion with
    | .greater => some candidate
    | .equal => none
    | .less =>
      match updateChannel with
      | .Default => some candidate
      | .Insiders =>
        match builds with
        | [] => none
        | first :: _ =>
          if first.name.compare userVersion = .equal ∧ first.assets.isEmpty then
            some candidate
          else
            none

/-! ## Test fixtures (from `test/unitTests/updowngrade.test.ts`) -/

def asset_win32 : Asset :=
  ⟨"cpptools-win32.vsix",
   "https://github.com/microsoft/vscode-cpptools/releases/download/0.27.0/cpptools-win32.vsix"⟩

def asset_linux : Asset :=
  ⟨"cpptools-linux.vsix",
   "https://github.com/microsoft/vscode-cpptools/releases/download/0.27.0/cpptools-linux.vsix"⟩

def asset_linux32 : Asset :=
  ⟨"cpptools-linux32.vsix",
   "https://github.com/microsoft/vscode-cpptools/releases/download/0.27.0/cpptools-linux32.vsix"⟩

def asset_osx : Asset :=
  ⟨"cpptools-osx.vsix",
   "https://github.com/microsoft/vscode-cpptools/releases/download/0.27.0/cpptools-osx.vsix"⟩

def four_assets : List Asset := [asset_win32, asset_linux, asset_linux32, asset_osx]

def release1 : VersionIdentifier := ⟨0, 27, 1, false, none⟩
def insider3 : VersionIdentifier := ⟨0, 27, 1, true, some 3⟩
def insider2 : VersionIdentifier := ⟨0, 27, 1, true, some 2⟩
def insider1 : VersionIdentifier := ⟨0, 27, 1, true, none⟩
def release0 : VersionIdentifier := ⟨0, 27, 0, false, none⟩

/-- The test fixtures' version literals parse to the fixture identifiers. -/
theorem parse_fixtures :
    parse "0.27.1" = .ok release1 ∧
    parse "0.27.1-insiders3" = .ok insider3 ∧
    parse "0.27.1-insiders2" = .ok insider2 ∧
    parse "0.27.1-insiders" = .ok insider1 ∧
    parse "0.27.0" = .ok release0 := by
  refine ⟨?_, ?_, ?_, ?_, ?_⟩ <;> rfl

/-! Each unit test of `updowngrade.test.ts`, replayed against the model. -/

theorem test_default_insiders_to_release :
    getTargetBuild
      [⟨insider3, []⟩, ⟨insider2, four_assets⟩, ⟨insider1, four_assets⟩,
       ⟨release0, four_assets⟩]
      insider2 .Default = some ⟨release0, four_assets⟩ := by rfl

theorem test_internal_insider_to_release :
    getTargetBuild [⟨release0, four_assets⟩] insider1 .Insiders = none := by rfl

theorem test_internal_insider_to_insider :
    getTargetBuild
      [⟨insider2, four_assets⟩, ⟨insider1, four_assets⟩, ⟨release0, four_assets⟩]
      insider3 .Insiders = none := by rfl

theorem test_internal_release_to_insider :
    getTargetBuild
      [⟨insider3, four_assets⟩, ⟨insider2, four_assets⟩, ⟨insider1, four_assets⟩,
       ⟨release0, four_assets⟩]
      release1 .Insiders = none := by rfl

theorem test_downgrade_insider_to_release :
    getTargetBuild
      [⟨insider3, []⟩, ⟨insider2, []⟩, ⟨insider1, []⟩, ⟨release0, four_assets⟩]
      insider3 .Insiders = some ⟨release0, four_assets⟩ := by rfl

theorem test_downgrade_insider_to_insider :
    getTargetBuild
      [⟨insider3, []⟩, ⟨insider2, []⟩, ⟨insider1, four_assets⟩, ⟨release0, four_assets⟩]
      insider3 .Insiders = some ⟨insider1, four_assets⟩ := by rfl

theorem test_upgrade_release_to_release :
    getTargetBuild
      [⟨release1, four_assets⟩, ⟨insider3, four_assets⟩, ⟨insider2, four_assets⟩]
      release0 .Insiders = some ⟨release1, four_assets⟩ := by rfl

theorem test_upgrade_insider_to_release :
    getTargetBuild
      [⟨release1, four_assets⟩, ⟨insider3, four_assets⟩, ⟨insider2, four_assets⟩]
      insider2 .Insiders = some ⟨release1, four_assets⟩ := by rfl

theorem test_asset_release_to_insider_upgrade :
    getTargetBuild
      [⟨insider2, []⟩, ⟨insider1, four_assets⟩, ⟨release0, four_assets⟩]
      release0 .Insiders = some ⟨insider1, four_assets⟩ := by rfl

theorem test_asset_release_to_insider_no_upgrade :
    getTargetBuild
      [⟨insider2, []⟩, ⟨insider1, []⟩, ⟨release0, four_assets⟩]
      release0 .Insiders = none := by rfl

theorem test_asset_insider_to_insider_upgrade :
    getTargetBuild
      [⟨insider3, []⟩, ⟨insider2, four_assets⟩, ⟨insider1, four_assets⟩,
       ⟨release0, four_assets⟩]
      insider1 .Insiders = some ⟨insider2, four_assets⟩ := by rfl

theorem test_asset_insider_to_insider_no_upgrade :
    getTargetBuild
      [⟨insider3, []⟩, ⟨insider2, four_assets⟩, ⟨release0, four_assets⟩]
      insider2 .Insiders = none := by rfl

/-! ## Characterizing the version order

`compare` is the lexicographic order on
`(major, minor, patch, prRank, seqKey)`, where `prRank` ranks a
non-prerelease above any prerelease of the same core and `seqKey` is the
sequence number of a prerelease (absent = 0, irrelevant for releases). -/

/-- Rank of the prerelease flag: a release outranks a prerelease (spec §4.1 rule 2). -/
def prRank (v : VersionIdentifier) : Nat := if v.isPrerelease then 0 else 1

/-- Ordering key for the sequence number: only meaningful on prereleases. -/
def seqKey (v : VersionIdentifier) : Nat := if v.isPrerelease then v.seqOrZero else 0

/-- Strict lexicographic order on the five-component key. -/
def keyLt (a b : VersionIdentifier) : Prop :=
  a.major < b.major ∨ (a.major = b.major ∧ (a.minor < b.minor ∨ (a.minor = b.minor ∧
    (a.patch < b.patch ∨ (a.patch = b.patch ∧ (prRank a < prRank b ∨
      (prRank a = prRank b ∧ seqKey a < seqKey b)))))))

/-- Equality of the five-component key. -/
def keyEq (a b : VersionIdentifier) : Prop :=
  a.major = b.major ∧ a.minor = b.minor ∧ a.patch = b.patch ∧
    prRank a = prRank b ∧ seqKey a = seqKey b

theorem compareNat_less_iff {a b : Nat} : compareNat a b = .less ↔ a < b := by
  unfold compareNat
  split_ifs <;> simp_all

theorem compareNat_greater_iff {a b : Nat} : compareNat a b = .greater ↔ b < a := by
  unfold compareNat
  split_ifs <;> simp_all <;> omega

theorem compareNat_equal_iff {a b : Nat} : compareNat a b = .equal ↔ a = b := by
  unfold compareNat
  split_ifs <;> simp_all <;> omega

/-- `compare` agrees with the lexicographic key order in all three outcomes. -/
theorem compare_spec (a b : VersionIdentifier) :
    (a.compare b = .less ↔ keyLt a b) ∧
    (a.compare b = .equal ↔ keyEq a b) ∧
    (a.compare b = .greater ↔ keyLt b a) := by
  unfold VersionIdentifier.compare keyLt keyEq
  cases h1 : compareNat a.major b.major
  case less =>
    rw [compareNat_less_iff] at h1
    simp_all
    omega
  case greater =>
    rw [compareNat_greater_iff] at h1
    simp_all
    omega
  case equal =>
    rw [compareNat_equal_iff] at h1
    cases h2 : compareNat a.minor b.minor
    case less =>
      rw [compareNat_less_iff] at h2
      simp_all
      omega
    case greater =>
      rw [compareNat_greater_iff] at h2
      simp_all
      omega
    case equal =>
      rw [compareNat_equal_iff] at h2
      cases h3 : compareNat a.patch b.patch
      case less =>
        rw [compareNat_less_iff] at h3
        simp_all
        omega
      case greater =>
        rw [compareNat_greater_iff] at h3
        simp_all
        omega
      case equal =>
        rw [compareNat_equal_iff] at h3
        cases hia : a.isPrerelease <;> cases hib : b.isPrerelease
        case false.false =>
          simp_all [prRank, seqKey]
        case false.true =>
          simp_all [prRank, seqKey]
        case true.false =>
          simp_all [prRank, seqKey]
        case true.true =>
          cases h4 : compareNat a.seqOrZero b.seqOrZero
          case less =>
            rw [compareNat_less_iff] at h4
            simp_all [prRank, seqKey]
            omega
          case greater =>
            rw [compareNat_greater_iff] at h4
            simp_all [prRank, seqKey]
            omega
          case equal =>
            rw [compareNat_equal_iff] at h4
            simp_all [prRank, seqKey]

theorem keyEq_refl (a : VersionIdentifier) : keyEq a a := ⟨rfl, rfl, rfl, rfl, rfl⟩

theorem keyEq_symm {a b : VersionIdentifier} (h : keyEq a b) : keyEq b a := by
  unfold keyEq at *
  omega

theorem keyLt_trans {a b c : VersionIdentifier} (h1 : keyLt a b) (h2 : keyLt b c) :
    keyLt a c := by
  unfold keyLt at *
  omega

/-- C4: `Compare` on `VersionIdentifier` is a total order: it is reflexive
(`Compare(a,a) = equal`), antisymmetric (`greater` one way exactly when `less`
the other way, and `equal` is symmetric) and transitive in both strict
directions. -/
theorem C4_compare_total_order :
    (∀ a : VersionIdentifier, a.compare a = .equal) ∧
    (∀ a b : VersionIdentifier,
      (a.compare b = .greater ↔ b.compare a = .less) ∧
      (a.compare b = .equal ↔ b.compare a = .equal)) ∧
    (∀ a b c : VersionIdentifier,
      (a.compare b = .greater → b.compare c = .greater → a.compare c = .greater) ∧
      (a.compare b = .less → b.compare c = .less → a.compare c = .less)) := by
  refine ⟨?_, ?_, ?_⟩
  · intro a
    exact (compare_spec a a).2.1.mpr (keyEq_refl a)
  · intro a b
    constructor
    · rw [(compare_spec a b).2.2, (compare_spec b a).1]
    · rw [(compare_spec a b).2.1, (compare_spec b a).2.1]
      exact ⟨keyEq_symm, keyEq_symm⟩
  · intro a b c
    constructor
    · intro h1 h2
      rw [(compare_spec a b).2.2] at h1
      rw [(compare_spec b c).2.2] at h2
      exact (compare_spec a c).2.2.mpr (keyLt_trans h2 h1)
    · intro h1 h2
      rw [(compare_spec a b).1] at h1
      rw [(compare_spec b c).1] at h2
      exact (compare_spec a c).1.mpr (keyLt_trans h1 h2)

/-- Witness for C4: transitivity applied at the concrete versions
`0.27.0 < 0.27.1-insiders < 0.27.1`. -/
theorem C4_compare_total_order_witness :
    VersionIdentifier.compare release0 release1 = .less :=
  (C4_compare_total_order.2.2 release0 insider1 release1).2 (by decide) (by decide)

/-- C5: for an equal `(major, minor, patch)` numeric core, a non-prerelease
version compares strictly greater than any prerelease version. -/
theorem C5_release_over_prerelease (a b : VersionIdentifier)
    (hM : a.major = b.major) (hm : a.minor = b.minor) (hp : a.patch = b.patch)
    (ha : a.isPrerelease = false) (hb : b.isPrerelease = true) :
    a.compare b = .greater := by
  refine (compare_spec a b).2.2.mpr ?_
  unfold keyLt
  have h1 : prRank b = 0 := by simp [prRank, hb]
  have h2 : prRank a = 1 := by simp [prRank, ha]
  omega

/-- Witness for C5: `0.27.1` compares greater than `0.27.1-insiders3`. -/
theorem C5_release_over_prerelease_witness :
    VersionIdentifier.compare release1 insider3 = .greater :=
  C5_release_over_prerelease release1 insider3 rfl rfl rfl rfl rfl

/-- C6: for an equal numeric core and both versions prerelease, the one whose
sequence number (absent behaving as 0) is higher compares strictly greater;
and a prerelease with an absent sequence number is never strictly greater
than a prerelease of the same core — it is the lowest of its family. -/
theorem C6_prerelease_monotonicity (a b : VersionIdentifier)
    (hM : a.major = b.major) (hm : a.minor = b.minor) (hp : a.patch = b.patch)
    (ha : a.isPrerelease = true) (hb : b.isPrerelease = true) :
    (b.seqOrZero < a.seqOrZero → a.compare b = .greater) ∧
    (a.prereleaseSequence = none → a.compare b ≠ .greater) := by
  have hka : seqKey a = a.seqOrZero := by simp [seqKey, ha]
  have hkb : seqKey b = b.seqOrZero := by simp [seqKey, hb]
  have hr : prRank a = prRank b := by simp [prRank, ha, hb]
  constructor
  · intro hseq
    refine (compare_spec a b).2.2.mpr ?_
    unfold keyLt
    omega
  · intro hnone hgt
    rw [(compare_spec a b).2.2] at hgt
    unfold keyLt at hgt
    have : a.seqOrZero = 0 := by simp [VersionIdentifier.seqOrZero, hnone]
    omega

/-- Witness for C6: `0.27.1-insiders3` against `0.27.1-insiders2`. -/
theorem C6_prerelease_monotonicity_witness :
    (insider2.seqOrZero < insider3.seqOrZero →
      VersionIdentifier.compare insider3 insider2 = .greater) ∧
    (insider3.prereleaseSequence = none →
      VersionIdentifier.compare insider3 insider2 ≠ .greater) :=
  C6_prerelease_monotonicity insider3 insider2 rfl rfl rfl rfl rfl

/-! ## Resolver claims -/

/-- C2: for every catalog, current version and channel, if the first build of
the channel's candidate pool with a non-empty asset set compares strictly
greater than the current version, the resolver returns that build — upgrades
are never gated. -/
theorem C2_upgrade_unconditional (builds : List Build) (userVersion : VersionIdentifier)
    (updateChannel : UpdateChannel) (candidate : Build)
    (hfind : (candidatePool builds updateChannel).find? Build.isPublished = some candidate)
    (hgt : candidate.name.compare userVersion = .greater) :
    getTargetBuild builds userVersion updateChannel = some candidate := by
  simp only [getTargetBuild, hfind, hgt]

/-- C7: if the first published build of the channel's candidate pool has a
version equal to the current version, the resolver returns no target. -/
theorem C7_equal_absent (builds : List Build) (userVersion : VersionIdentifier)
    (updateChannel : UpdateChannel) (candidate : Build)
    (hfind : (candidatePool builds updateChannel).find? Build.isPublished = some candidate)
    (heq : candidate.name.compare userVersion = .equal) :
    getTargetBuild builds userVersion updateChannel = none := by
  simp only [getTargetBuild, hfind, heq]

/-- C8: an empty catalog, or a candidate pool in which every entry has an
empty asset set, yields no target. -/
theorem C8_no_published_absent (builds : List Build) (userVersion : VersionIdentifier)
    (updateChannel : UpdateChannel)
    (h : builds = [] ∨ ∀ b ∈ candidatePool builds updateChannel, b.assets = []) :
    getTargetBuild builds userVersion updateChannel = none := by
  have hnone : (candidatePool builds updateChannel).find? Build.isPublished = none := by
    rw [List.find?_eq_none]
    intro b hb
    rcases h with h | h
    · subst h
      cases updateChannel <;> simp [candidatePool] at hb
    · simp [Build.isPublished, h b hb]
  simp only [getTargetBuild, hnone]

/-- Whatever the resolver returns is exactly the first published candidate of
the channel's pool. -/
theorem returned_is_candidate (builds : List Build) (userVersion : VersionIdentifier)
    (updateChannel : UpdateChannel) (b : Build)
    (h : getTargetBuild builds userVersion updateChannel = some b) :
    (candidatePool builds updateChannel).find? Build.isPublished = some b := by
  cases hfind : (candidatePool builds updateChannel).find? Build.isPublished with
  | none =>
    simp only [getTargetBuild, hfind] at h
    exact h
  | some candidate =>
    simp only [getTargetBuild, hfind] at h
    cases hcmp : candidate.name.compare userVersion <;> simp only [hcmp] at h
    case less =>
      cases updateChannel with
      | Default =>
        simp only at h
        exact h
      | Insiders =>
        rcases builds with _ | ⟨first, rest⟩
        · simp at h
        · simp only at h
          split_ifs at h
          all_goals simp_all
    case equal =>
      simp at h
    case greater =>
      exact h

/-- C3: on the Default channel the resolver never returns a prerelease
build: any returned build's version has no -insiders suffix. -/
theorem C3_default_never_prerelease (builds : List Build) (userVersion : VersionIdentifier)
    (b : Build) (h : getTargetBuild builds userVersion .Default = some b) :
    b.name.isPrerelease = false := by
  have hfind := returned_is_candidate builds userVersion .Default b h
  have hmem : b ∈ candidatePool builds .Default := List.mem_of_find?_eq_some hfind
  have h2 : b ∈ builds ∧ b.name.isPrerelease = false := by
    simpa [candidatePool] using hmem
  exact h2.2

/-- C10: any build the resolver returns has a non-empty asset set — an
unpublished build is never selected, on any channel, not even as the Insiders
broken-build downgrade fallback. -/
theorem C10_returned_build_published (builds : List Build)
    (userVersion : VersionIdentifier) (updateChannel : UpdateChannel) (b : Build)
    (h : getTargetBuild builds userVersion updateChannel = some b) :
    b.assets ≠ [] := by
  have hfind := returned_is_candidate builds userVersion updateChannel b h
  have hpub : b.isPublished = true := List.find?_some hfind
  simpa [Build.isPublished, List.isEmpty_iff] using hpub

/-- C1: on the Insiders channel, when the first published candidate of the
unfiltered catalog compares strictly less than the current version (a
downgrade), the resolver returns that candidate exactly when the catalog's
entry at position 0 has a version equal to the current version and an empty
asset set; in every other downgrade situation it returns no target. -/
theorem C1_insiders_downgrade_gate (builds : List Build)
    (userVersion : VersionIdentifier) (candidate : Build)
    (hfind : builds.find? Build.isPublished = some candidate)
    (hlt : candidate.name.compare userVersion = .less) :
    (getTargetBuild builds userVersion .Insiders = some candidate ↔
      ∃ first rest, builds = first :: rest ∧
        first.name.compare userVersion = .equal ∧ first.assets = []) ∧
    ((¬ ∃ first rest, builds = first :: rest ∧
        first.name.compare userVersion = .equal ∧ first.assets = []) →
      getTargetBuild builds userVersion .Insiders = none) := by
  rcases builds with _ | ⟨first, rest⟩
  · cases hfind
  · have hpool : candidatePool (first :: rest) .Insiders = first :: rest := rfl
    have hgate : getTargetBuild (first :: rest) userVersion .Insiders =
        if first.name.compare userVersion = .equal ∧ first.assets.isEmpty then
          some candidate
        else none := by
      simp only [getTargetBuild, hpool, hfind, hlt]
    constructor
    · rw [hgate]
      constructor
      · intro h
        by_cases hc : first.name.compare userVersion = .equal ∧ first.assets.isEmpty
        · exact ⟨first, rest, rfl, hc.1, List.isEmpty_iff.mp hc.2⟩
        · rw [if_neg hc] at h
          cases h
      · rintro ⟨f, r, hfr, hv, ha⟩
        obtain ⟨rfl, rfl⟩ : first = f ∧ rest = r := by
          injection hfr with h1 h2
          exact ⟨h1, h2⟩
        rw [if_pos ⟨hv, List.isEmpty_iff.mpr ha⟩]
    · intro hn
      rw [hgate, if_neg]
      intro hc
      exact hn ⟨first, rest, rfl, hc.1, List.isEmpty_iff.mp hc.2⟩

/-- Witness for C2: the Automatic Upgrade scenario of the unit tests. -/
theorem C2_upgrade_unconditional_witness :
    getTargetBuild
      [⟨release1, four_assets⟩, ⟨insider3, four_assets⟩, ⟨insider2, four_assets⟩]
      release0 .Insiders = some ⟨release1, four_assets⟩ :=
  C2_upgrade_unconditional
    [⟨release1, four_assets⟩, ⟨insider3, four_assets⟩, ⟨insider2, four_assets⟩]
    release0 .Insiders ⟨release1, four_assets⟩ (by rfl) (by rfl)

/-- Witness for C7: the Insider-to-Insider no-upgrade scenario. -/
theorem C7_equal_absent_witness :
    getTargetBuild
      [⟨insider3, []⟩, ⟨insider2, four_assets⟩, ⟨release0, four_assets⟩]
      insider2 .Insiders = none :=
  C7_equal_absent
    [⟨insider3, []⟩, ⟨insider2, four_assets⟩, ⟨release0, four_assets⟩]
    insider2 .Insiders ⟨insider2, four_assets⟩ (by rfl) (by rfl)

/-- Witness for C8: the empty catalog. -/
theorem C8_no_published_absent_witness :
    getTargetBuild [] release0 .Default = none :=
  C8_no_published_absent [] release0 .Default (Or.inl rfl)

/-- Witness for C3: the Default-channel downgrade scenario returns the
non-prerelease build 0.27.0. -/
theorem C3_default_never_prerelease_witness :
    (Build.mk release0 four_assets).name.isPrerelease = false :=
  C3_default_never_prerelease
    [⟨insider3, []⟩, ⟨insider2, four_assets⟩, ⟨insider1, four_assets⟩,
     ⟨release0, four_assets⟩]
    insider2 ⟨release0, four_assets⟩ (by rfl)

/-- Witness for C10: the Insiders broken-build fallback scenario, whose
returned fallback is itself a prerelease build with assets. -/
theorem C10_returned_build_published_witness :
    (Build.mk insider1 four_assets).assets ≠ [] :=
  C10_returned_build_published
    [⟨insider3, []⟩, ⟨insider2, []⟩, ⟨insider1, four_assets⟩, ⟨release0, four_assets⟩]
    insider3 .Insiders ⟨insider1, four_assets⟩ (by rfl)

/-- Witness for C1: the broken-build downgrade scenario of the unit tests. -/
theorem C1_insiders_downgrade_gate_witness :
    (getTargetBuild
        [⟨insider3, []⟩, ⟨insider2, []⟩, ⟨insider1, []⟩, ⟨release0, four_assets⟩]
        insider3 .Insiders = some ⟨release0, four_assets⟩ ↔
      ∃ first rest,
        [⟨insider3, []⟩, ⟨insider2, []⟩, ⟨insider1, []⟩,
         (⟨release0, four_assets⟩ : Build)] = first :: rest ∧
        first.name.compare insider3 = .equal ∧ first.assets = []) ∧
    ((¬ ∃ first rest,
        [⟨insider3, []⟩, ⟨insider2, []⟩, ⟨insider1, []⟩,
         (⟨release0, four_assets⟩ : Build)] = first :: rest ∧
        first.name.compare insider3 = .equal ∧ first.assets = []) →
      getTargetBuild
        [⟨insider3, []⟩, ⟨insider2, []⟩, ⟨insider1, []⟩, ⟨release0, four_assets⟩]
        insider3 .Insiders = none) :=
  C1_insiders_downgrade_gate
    [⟨insider3, []⟩, ⟨insider2, []⟩, ⟨insider1, []⟩, ⟨release0, four_assets⟩]
    insider3 ⟨release0, four_assets⟩ (by rfl) (by rfl)

/-! ## The parse grammar (C9) -/

/-- The version grammar of spec §4.1, stated independently of the parser as a
decomposition of the character list: `<uint>.<uint>.<uint>` optionally
followed by `-insiders<uint?>`. -/
def matchesGrammar (cs : List Char) : Prop :=
  ∃ d1 d2 d3 suf, cs = d1 ++ '.' :: (d2 ++ '.' :: (d3 ++ suf)) ∧
    d1 ≠ [] ∧ d1.all Char.isDigit ∧
    d2 ≠ [] ∧ d2.all Char.isDigit ∧
    d3 ≠ [] ∧ d3.all Char.isDigit ∧
    (suf = [] ∨
      ∃ ds, suf = '-' :: 'i' :: 'n' :: 's' :: 'i' :: 'd' :: 'e' :: 'r' :: 's' :: ds ∧
        ds.all Char.isDigit)

theorem takeWhile_append_stop {p : Char → Bool} (d rest : List Char)
    (hd : d.all p = true)
    (hr : rest = [] ∨ ∃ c cs, rest = c :: cs ∧ p c = false) :
    (d ++ rest).takeWhile p = d ∧ (d ++ rest).dropWhile p = rest := by
  induction d with
  | nil =>
    rcases hr with rfl | ⟨c, cs, rfl, hc⟩
    · simp
    · simp [List.takeWhile, List.dropWhile, hc]
  | cons a d ih =>
    rw [List.all_cons] at hd
    have h1 := ih (by exact (Bool.and_eq_true _ _).mp hd |>.2)
    simp only [List.cons_append, List.takeWhile, List.dropWhile,
      (Bool.and_eq_true _ _).mp hd |>.1]
    simp [h1.1, h1.2]

theorem parseChars_ok_iff (cs : List Char) :
    (∃ v, parseChars cs = .ok v) ↔ matchesGrammar cs := by
  constructor
  · rintro ⟨v, hv⟩
    simp only [parseChars] at hv
    split at hv
    · exact absurd hv (by simp)
    · rename_i hne1
      split at hv
      case _ cs2 heq1 =>
        split at hv
        · exact absurd hv (by simp)
        · rename_i hne2
          split at hv
          case _ cs3 heq2 =>
            split at hv
            · exact absurd hv (by simp)
            · rename_i hne3
              split at hv
              case _ heq3 =>
                refine ⟨cs.takeWhile Char.isDigit, cs2.takeWhile Char.isDigit,
                  cs3.takeWhile Char.isDigit, [], ?_, ?_, ?_, ?_, ?_, ?_, ?_, Or.inl rfl⟩
                · conv_lhs => rw [← List.takeWhile_append_dropWhile Char.isDigit cs]
                  rw [heq1]
                  congr 1
                  conv_lhs => rw [← List.takeWhile_append_dropWhile Char.isDigit cs2]
                  rw [heq2]
                  congr 2
                  conv_lhs => rw [← List.takeWhile_append_dropWhile Char.isDigit cs3]
                  rw [heq3]
                · simpa [List.isEmpty_iff] using hne1
                · exact List.all_eq_true.mpr fun c hc => List.mem_takeWhile_imp hc
                · simpa [List.isEmpty_iff] using hne2
                · exact List.all_eq_true.mpr fun c hc => List.mem_takeWhile_imp hc
                · simpa [List.isEmpty_iff] using hne3
                · exact List.all_eq_true.mpr fun c hc => List.mem_takeWhile_imp hc
              case _ ds heq3 =>
                split at hv
                · rename_i hall
                  refine ⟨cs.takeWhile Char.isDigit, cs2.takeWhile Char.isDigit,
                    cs3.takeWhile Char.isDigit,
                    '-' :: 'i' :: 'n' :: 's' :: 'i' :: 'd' :: 'e' :: 'r' :: 's' :: ds,
                    ?_, ?_, ?_, ?_, ?_, ?_, ?_, Or.inr ⟨ds, rfl, hall⟩⟩
                  · conv_lhs => rw [← List.takeWhile_append_dropWhile Char.isDigit cs]
                    rw [heq1]
                    congr 1
                    conv_lhs => rw [← List.takeWhile_append_dropWhile Char.isDigit cs2]
                    rw [heq2]
                    congr 2
                    conv_lhs => rw [← List.takeWhile_append_dropWhile Char.isDigit cs3]
                    rw [heq3]
                  · simpa [List.isEmpty_iff] using hne1
                  · exact List.all_eq_true.mpr fun c hc => List.mem_takeWhile_imp hc
                  · simpa [List.isEmpty_iff] using hne2
                  · exact List.all_eq_true.mpr fun c hc => List.mem_takeWhile_imp hc
                  · simpa [List.isEmpty_iff] using hne3
                  · exact List.all_eq_true.mpr fun c hc => List.mem_takeWhile_imp hc
                · exact absurd hv (by simp)
              case _ =>
                exact absurd hv (by simp)
          case _ =>
            exact absurd hv (by simp)
      case _ =>
        exact absurd hv (by simp)
  · rintro ⟨d1, d2, d3, suf, rfl, h1ne, h1d, h2ne, h2d, h3ne, h3d, hsuf⟩
    have hdot : Char.isDigit '.' = false := rfl
    have hdash : Char.isDigit '-' = false := rfl
    have h1 := takeWhile_append_stop d1 ('.' :: (d2 ++ '.' :: (d3 ++ suf))) h1d
      (Or.inr ⟨'.', _, rfl, hdot⟩)
    have h2 := takeWhile_append_stop d2 ('.' :: (d3 ++ suf)) h2d
      (Or.inr ⟨'.', _, rfl, hdot⟩)
    rcases hsuf with rfl | ⟨ds, rfl, hall⟩
    · have h3 := takeWhile_append_stop d3 [] h3d (Or.inl rfl)
      refine ⟨⟨natOfDigits d1, natOfDigits d2, natOfDigits d3, false, none⟩, ?_⟩
      simp only [parseChars, h1.1, h1.2, h2.1, h2.2, h3.1, h3.2]
      simp [List.isEmpty_iff, h1ne, h2ne, h3ne]
    · have h3 := takeWhile_append_stop d3
        ('-' :: 'i' :: 'n' :: 's' :: 'i' :: 'd' :: 'e' :: 'r' :: 's' :: ds) h3d
        (Or.inr ⟨'-', _, rfl, hdash⟩)
      refine ⟨⟨natOfDigits d1, natOfDigits d2, natOfDigits d3, true,
        if ds.isEmpty then none else some (natOfDigits ds)⟩, ?_⟩
      simp only [parseChars, h1.1, h1.2, h2.1, h2.2, h3.1, h3.2]
      simp [List.isEmpty_iff, h1ne, h2ne, h3ne, hall]

/-- Counterexample to C9 as stated: the input `"1.2.3-beta"` carries a
present, numeric `<uint>.<uint>.<uint>` core — the core alone parses — yet
`Parse` rejects the whole string, because the suffix falls outside the
grammar; so "fails exactly when the numeric core is missing or non-numeric"
does not hold. -/
theorem C9_counterexample :
    parse "1.2.3" = .ok ⟨1, 2, 3, false, none⟩ ∧
    parse "1.2.3-beta" = .error .MalformedVersion :=
  ⟨rfl, rfl⟩

/-- C9 (amended): `Parse` succeeds exactly on the strings matching the grammar
`<uint>.<uint>.<uint>` optionally followed by `-insiders` with optional
trailing digits — in particular it fails when the numeric core is missing or
non-numeric — and `MalformedVersion` is the only error it can raise. -/
theorem C9_parse_malformed_iff (s : String) :
    ((∃ v, parse s = .ok v) ↔ matchesGrammar s.toList) ∧
    (∀ e, parse s = .error e → e = .MalformedVersion) := by
  constructor
  · exact parseChars_ok_iff s.toList
  · intro e _
    cases e
    rfl

/-- Witness for C9: the fixture literal `0.27.1-insiders3` parses, hence lies
in the grammar. -/
theorem C9_parse_malformed_iff_witness :
    matchesGrammar "0.27.1-insiders3".toList :=
  (C9_parse_malformed_iff "0.27.1-insiders3").1.mp ⟨insider3, by rfl⟩
